import Mathlib

/-
  Verification development for the team-member lifecycle service
  (src/services/team-member.service.js, src/controllers/team-member.controller.js).

  The service methods are shallowly embedded as pure functions over an explicit
  database state (a list of team-member records).  Each operation returns the
  outcome (success value or domain error), the resulting database, and the list
  of invite emails dispatched during the call, so that side-effect claims can
  be stated directly.
-/

namespace Projectify

/-- Team-member account status: the string enum used by the service. -/
inductive Status where
  | INACTIVE
  | ACTIVE
  | DEACTIVATED
deriving DecidableEq, Repr

/-- A team-member record as stored by the repository.  The `password` and
`inviteToken` columns hold hashes (or null), exactly as in the Prisma model
used by the service. -/
structure TeamMember where
  id : Nat
  adminId : Nat
  firstName : String
  lastName : String
  position : String
  joinDate : String
  email : String
  password : Option String
  inviteToken : Option String
  status : Status
deriving DecidableEq, Repr

/-- The database: the team-member table. -/
abbrev DB := List TeamMember

/-- CustomError from utils: a message plus a numeric status code. -/
structure Err where
  message : String
  statusCode : Nat
deriving DecidableEq, Repr

deriving instance DecidableEq for Except

/-- Outcome of one service call: the returned value or thrown error, the
database after the call, and the invite emails dispatched (recipient, plaintext
token) during the call. -/
structure OpResult (α : Type) where
  res : Except Err α
  db : DB
  emails : List (String × String)
deriving DecidableEq, Repr

/-- Modelled from the spec: the Token Service hash — a deterministic one-way
digest of a plaintext token (`crypto.hash` from utils/crypto.js, which is not
among the sources; the spec describes it only as an opaque deterministic
digest). -/
def cryptoHash (t : String) : String := "sha256:" ++ t

/-- Modelled from the spec: the Credential Hasher hash (`bcrypt.hash` from
utils/bcrypt.js, not among the sources; the spec describes it as an opaque
one-way hash). -/
def bcryptHash (p : String) : String := "bcrypt:" ++ p

/-- Modelled from the spec: the Credential Hasher verify (`bcrypt.compare`).
Comparing against a null stored hash never succeeds. -/
def bcryptCompare (p : String) (stored : Option String) : Bool :=
  match stored with
  | some h => bcryptHash p == h
  | none => false

/-- A signed session credential as produced by `jwt.sign`: the claims it binds
and its validity window. -/
structure SessionToken where
  teamMemberId : Nat
  adminId : Nat
  expiresIn : String
deriving DecidableEq, Repr

/-- Modelled from the spec: the Session Issuer — `jwt.sign` with the
team-member claims and a ttl. -/
def jwtSign (teamMemberId adminId : Nat) (ttl : String) : SessionToken :=
  { teamMemberId := teamMemberId, adminId := adminId, expiresIn := ttl }

/-- The repeated 403 message of the service. -/
def forbiddenMessage : String :=
  "Forbidden: You are not authorized to perform this action"

/-- The 404 message interpolating the missing id. -/
def notFoundWithIdMessage (id : Nat) : String :=
  "Team member does not exist with following id " ++ toString id

/-- A record serialized as its named fields, for stating what a Prisma
`select` projection contains. -/
inductive FieldValue where
  | nat (v : Nat)
  | str (v : String)
  | optStr (v : Option String)
  | stat (v : Status)
deriving DecidableEq, Repr

/-- All columns of a team-member record, by name. -/
def allFields (t : TeamMember) : List (String × FieldValue) :=
  [ ("id", .nat t.id), ("adminId", .nat t.adminId),
    ("firstName", .str t.firstName), ("lastName", .str t.lastName),
    ("position", .str t.position), ("joinDate", .str t.joinDate),
    ("email", .str t.email), ("password", .optStr t.password),
    ("inviteToken", .optStr t.inviteToken), ("status", .stat t.status) ]

/-- A Prisma `select`: keep exactly the named columns. -/
def selectFields (sel : List String) (t : TeamMember) : List (String × FieldValue) :=
  (allFields t).filter (fun kv => sel.contains kv.fst)

/-- The `select` of TeamMemberService.create. -/
def createSelect : List String :=
  ["id", "firstName", "lastName", "position", "joinDate", "email", "status"]

/-- The `select` of TeamMemberService.getAll. -/
def getAllSelect : List String :=
  ["id", "firstName", "lastName", "email", "position", "status", "joinDate"]

/-- The `select` of TeamMemberService.getMe. -/
def getMeSelect : List String :=
  ["firstName", "lastName", "position", "status", "email", "id", "adminId"]

/-- The input accepted by TeamMemberService.create (built by the controller
from the request body; all five fields already validated non-empty there). -/
structure CreateInput where
  firstName : String
  lastName : String
  email : String
  position : String
  joinDate : String
deriving DecidableEq, Repr

/-- The record inserted by TeamMemberService.create: the input fields, the
caller as owner, the invite-token hash, no password.  The `INACTIVE` default
status is modelled from the spec (the Prisma schema is not among the
sources; the spec fixes creation status to INACTIVE). -/
def newTeamMember (adminId : Nat) (input : CreateInput) (inviteTok : String)
    (newId : Nat) : TeamMember :=
  { id := newId, adminId := adminId,
    firstName := input.firstName, lastName := input.lastName,
    position := input.position, joinDate := input.joinDate,
    email := input.email,
    password := none,
    inviteToken := some (cryptoHash inviteTok),
    status := .INACTIVE }

namespace TeamMemberService

/-- TeamMemberService.create.  `inviteTok` stands for the random token drawn
from `crypto.createToken`, `newId` for the id generated by the store, and
`mailerOk` for whether the Notifier call succeeds.  The id/email unique
constraints are modelled from the spec (§3; the Prisma schema is not among
the sources): inserting a duplicate makes the store throw and nothing is
created.  The record is inserted before the mailer runs; a mailer failure
propagates out of the method uncaught. -/
def create (adminId : Nat) (input : CreateInput) (inviteTok : String)
    (newId : Nat) (mailerOk : Bool) (db : DB) : OpResult (List (String × FieldValue)) :=
  if db.any (fun t => t.id == newId || t.email == input.email) then
    { res := .error ⟨"Unique constraint failed", 500⟩, db := db, emails := [] }
  else
    let tm := newTeamMember adminId input inviteTok newId
    { res := if mailerOk then .ok (selectFields createSelect tm)
             else .error ⟨"Email dispatch failed", 500⟩,
      db := db ++ [tm],
      emails := if mailerOk then [(input.email, inviteTok)] else [] }

/-- TeamMemberService.delete. -/
def delete (adminId teamMemberId : Nat) (db : DB) : OpResult Unit :=
  match db.find? (fun t => t.id == teamMemberId) with
  | none =>
    { res := .error ⟨notFoundWithIdMessage teamMemberId, 404⟩, db := db, emails := [] }
  | some teamMember =>
    if teamMember.adminId != adminId then
      { res := .error ⟨forbiddenMessage, 403⟩, db := db, emails := [] }
    else if teamMember.status == .ACTIVE || teamMember.status == .DEACTIVATED then
      { res := .error ⟨"Only users with INACTIVE status can be deleted!", 404⟩,
        db := db, emails := [] }
    else
      { res := .ok (), db := db.filter (fun t => t.id != teamMemberId), emails := [] }

/-- TeamMemberService.createPassword.  The lookup is by invite-token hash; the
update is scoped by the supplied email.  A Prisma unique `update` whose `where`
matches no record throws a store error (P2025), modelled as a 500. -/
def createPassword (inviteTok password email : String) (db : DB) : OpResult Unit :=
  let hashedInviteToken := cryptoHash inviteTok
  let hashedPassword := bcryptHash password
  match db.find? (fun t => t.inviteToken == some hashedInviteToken) with
  | none => { res := .error ⟨"Invalid Token", 400⟩, db := db, emails := [] }
  | some _ =>
    if db.any (fun t => t.email == email) then
      { res := .ok (),
        db := db.map (fun t =>
          if t.email == email then
            { t with password := some hashedPassword, status := .ACTIVE,
                     inviteToken := none }
          else t),
        emails := [] }
    else
      { res := .error ⟨"Record to update not found", 500⟩, db := db, emails := [] }

/-- TeamMemberService.getAll. -/
def getAll (adminId : Nat) (db : DB) : List (List (String × FieldValue)) :=
  (db.filter (fun t => t.adminId == adminId)).map (selectFields getAllSelect)

/-- TeamMemberService.changeStatus. -/
def changeStatus (adminId teamMemberId : Nat) (status : Status) (db : DB) : OpResult Unit :=
  match db.find? (fun t => t.id == teamMemberId) with
  | none =>
    { res := .error ⟨notFoundWithIdMessage teamMemberId, 404⟩, db := db, emails := [] }
  | some teamMember =>
    if teamMember.adminId != adminId then
      { res := .error ⟨forbiddenMessage, 403⟩, db := db, emails := [] }
    else if teamMember.status == .INACTIVE then
      { res := .error ⟨"Status Change is now allowed. Users with INACTIVE status can be deleted only!", 403⟩,
        db := db, emails := [] }
    else
      { res := .ok (),
        db := db.map (fun t =>
          if t.id == teamMemberId && t.adminId == adminId then
            { t with status := status }
          else t),
        emails := [] }

/-- The partial update payload forwarded to the store by
TeamMemberService.update: an optional value per updatable column. -/
structure UpdateData where
  firstName : Option String
  lastName : Option String
  position : Option String
  joinDate : Option String
deriving DecidableEq, Repr

/-- Applying an update payload to a record: present fields overwrite, absent
fields keep the stored value; no other column is touched. -/
def applyUpdateData (ud : UpdateData) (t : TeamMember) : TeamMember :=
  { t with
    firstName := ud.firstName.getD t.firstName,
    lastName := ud.lastName.getD t.lastName,
    position := ud.position.getD t.position,
    joinDate := ud.joinDate.getD t.joinDate }

/-- TeamMemberService.update: a Prisma `update` scoped by id and adminId.  A
scope matching no record makes the store throw (P2025), modelled as a 500. -/
def update (adminId teamMemberId : Nat) (updateData : UpdateData) (db : DB) : OpResult Unit :=
  if db.any (fun t => t.id == teamMemberId && t.adminId == adminId) then
    { res := .ok (),
      db := db.map (fun t =>
        if t.id == teamMemberId && t.adminId == adminId then
          applyUpdateData updateData t
        else t),
      emails := [] }
  else
    { res := .error ⟨"Record to update not found", 500⟩, db := db, emails := [] }

/-- TeamMemberService.isTeamMemberBelongsToAdmin. -/
def isTeamMemberBelongsToAdmin (id adminId : Nat) (db : DB) : OpResult Unit :=
  match db.find? (fun t => t.id == id) with
  | none => { res := .error ⟨"Team member does not exist", 404⟩, db := db, emails := [] }
  | some teamMember =>
    if teamMember.adminId != adminId then
      { res := .error ⟨forbiddenMessage, 403⟩, db := db, emails := [] }
    else
      { res := .ok (), db := db, emails := [] }

/-- TeamMemberService.login.  `freshTok` stands for the random token drawn
from `crypto.createToken` on the INACTIVE re-invite path. -/
def login (email password freshTok : String) (db : DB) : OpResult SessionToken :=
  match db.find? (fun t => t.email == email) with
  | none =>
    { res := .error ⟨"Team member does not exist", 404⟩, db := db, emails := [] }
  | some teamMember =>
    if teamMember.status == .INACTIVE then
      { res := .error ⟨"You did not set up the account password yet. We just emailed an instruction.", 400⟩,
        db := db.map (fun t =>
          if t.email == email then
            { t with inviteToken := some (cryptoHash freshTok) }
          else t),
        emails := [(email, freshTok)] }
    else if teamMember.status == .DEACTIVATED then
      { res := .error ⟨"Oops. You do not have an access to the platform anymore!", 401⟩,
        db := db, emails := [] }
    else if bcryptCompare password teamMember.password then
      { res := .ok (jwtSign teamMember.id teamMember.adminId "2 days"),
        db := db, emails := [] }
    else
      { res := .error ⟨"Invalid Credentials", 401⟩, db := db, emails := [] }

/-- TeamMemberService.getMe: the selected profile fields plus the fixed
role discriminator. -/
def getMe (id : Nat) (db : DB) : OpResult (List (String × FieldValue)) :=
  match db.find? (fun t => t.id == id) with
  | none => { res := .error ⟨"Team member does not exist", 404⟩, db := db, emails := [] }
  | some teamMember =>
    { res := .ok (selectFields getMeSelect teamMember ++ [("role", .str "teamMember")]),
      db := db, emails := [] }

end TeamMemberService

namespace TeamMemberController

/-- The update-related request body fields read by TeamMemberController.update;
`none` models an absent field. -/
structure UpdateBody where
  firstName : Option String
  lastName : Option String
  position : Option String
  joinDate : Option String
deriving DecidableEq, Repr

/-- JavaScript truthiness of an optional string field: absent, null and the
empty string are falsy. -/
def truthyStr : Option String → Bool
  | none => false
  | some s => !(s == "")

/-- The `updateData` object built field-by-field by TeamMemberController.update:
a field is included exactly when the body value is truthy. -/
def buildUpdateData (body : UpdateBody) : TeamMemberService.UpdateData :=
  { firstName := if truthyStr body.firstName then body.firstName else none,
    lastName := if truthyStr body.lastName then body.lastName else none,
    position := if truthyStr body.position then body.position else none,
    joinDate := if truthyStr body.joinDate then body.joinDate else none }

/-- TeamMemberController.deactivate: changeStatus with the literal DEACTIVATED. -/
def deactivate (adminId teamMemberId : Nat) (db : DB) : OpResult Unit :=
  TeamMemberService.changeStatus adminId teamMemberId .DEACTIVATED db

/-- TeamMemberController.reactivate: changeStatus with the literal ACTIVE. -/
def reactivate (adminId teamMemberId : Nat) (db : DB) : OpResult Unit :=
  TeamMemberService.changeStatus adminId teamMemberId .ACTIVE db

/-- TeamMemberController.update: builds the truthy-filtered payload and calls
the service update. -/
def update (adminId teamMemberId : Nat) (body : UpdateBody) (db : DB) : OpResult Unit :=
  TeamMemberService.update adminId teamMemberId (buildUpdateData body) db

end TeamMemberController

/-- The public operations reachable through the controller, with the
nondeterministic inputs (generated tokens, generated ids, mailer success)
made explicit. -/
inductive PublicOp where
  | createOp (adminId : Nat) (input : CreateInput) (inviteTok : String) (newId : Nat) (mailerOk : Bool)
  | createPasswordOp (inviteTok password email : String)
  | getAllOp (adminId : Nat)
  | deactivateOp (adminId teamMemberId : Nat)
  | reactivateOp (adminId teamMemberId : Nat)
  | deleteOp (adminId teamMemberId : Nat)
  | updateOp (adminId teamMemberId : Nat) (body : TeamMemberController.UpdateBody)
  | loginOp (email password freshTok : String)
  | getMeOp (id : Nat)
deriving DecidableEq, Repr

/-- The database produced by running one public operation. -/
def runOp (op : PublicOp) (db : DB) : DB :=
  match op with
  | .createOp a i tok n m => (TeamMemberService.create a i tok n m db).db
  | .createPasswordOp tok p e => (TeamMemberService.createPassword tok p e db).db
  | .getAllOp _ => db
  | .deactivateOp a i => (TeamMemberController.deactivate a i db).db
  | .reactivateOp a i => (TeamMemberController.reactivate a i db).db
  | .deleteOp a i => (TeamMemberService.delete a i db).db
  | .updateOp a i b => (TeamMemberController.update a i b db).db
  | .loginOp e p tok => (TeamMemberService.login e p tok db).db
  | .getMeOp i => (TeamMemberService.getMe i db).db

/-- Finding a record after a per-record patch that does not change the
searched key: the patch commutes with the lookup. -/
theorem find?_map_patch (p : TeamMember → Bool) (f : TeamMember → TeamMember)
    (hf : ∀ t, p (f t) = p t) (db : DB) :
    (db.map f).find? p = (db.find? p).map f := by
  rw [List.find?_map]
  have h : p ∘ f = p := funext hf
  rw [h]

/-- Fixture: a pending (INACTIVE) member with an outstanding invite token. -/
def tmA : TeamMember :=
  { id := 1, adminId := 7, firstName := "Ann", lastName := "Ames",
    position := "Engineer", joinDate := "2024-01-01", email := "ann@x.com",
    password := none, inviteToken := some (cryptoHash "tokA"),
    status := .INACTIVE }

/-- Fixture: an ACTIVE member with a set password and no pending token. -/
def tmB : TeamMember :=
  { id := 2, adminId := 7, firstName := "Bob", lastName := "Banes",
    position := "Designer", joinDate := "2024-02-01", email := "bob@x.com",
    password := some (bcryptHash "oldpw"), inviteToken := none,
    status := .ACTIVE }

/-- Fixture: a DEACTIVATED member. -/
def tmC : TeamMember :=
  { id := 3, adminId := 7, firstName := "Cid", lastName := "Cole",
    position := "QA", joinDate := "2024-03-01", email := "cid@x.com",
    password := some (bcryptHash "cpw"), inviteToken := none,
    status := .DEACTIVATED }

/-- C1: in the database [tmA, tmB] the supplied token hash-matches record tmA
(id 1), yet createPassword called with tmB's email succeeds and updates tmB
(id 2) — a record different from the one matched by the token hash — leaving
tmA still pending.  This exhibits the failing input for the claim that the
operation never updates a record other than the token-matched one. -/
theorem createPassword_updates_other_record :
    ([tmA, tmB].find? (fun t => t.inviteToken == some (cryptoHash "tokA")) = some tmA) ∧
    tmA.id ≠ tmB.id ∧
    (TeamMemberService.createPassword "tokA" "newpw" "bob@x.com" [tmA, tmB]).res = .ok () ∧
    (TeamMemberService.createPassword "tokA" "newpw" "bob@x.com" [tmA, tmB]).db =
      [tmA, { tmB with password := some (bcryptHash "newpw"), status := .ACTIVE,
                       inviteToken := none }] := by
  refine ⟨rfl, by decide, rfl, rfl⟩

/-- C2 counterexample: with a token whose hash matches no stored record,
createPassword throws "Invalid Token" with status code 400, not the claimed
404 NotFoundError class. -/
theorem createPassword_invalid_token_is_400 :
    (TeamMemberService.createPassword "zz" "pw" "ann@x.com" [tmA]).res =
      Except.error ⟨"Invalid Token", 400⟩ ∧ (400 : Nat) ≠ 404 := by
  refine ⟨rfl, by decide⟩

/-- C2 (amended): when no stored invite-token hash equals the hash of the
supplied token, createPassword fails with a 400-coded "Invalid Token" error
(not 404), modifies no record and sends no email. -/
theorem createPassword_no_match_fails_400 (inviteTok password email : String) (db : DB)
    (h : ∀ t ∈ db, t.inviteToken ≠ some (cryptoHash inviteTok)) :
    (TeamMemberService.createPassword inviteTok password email db).res =
      Except.error ⟨"Invalid Token", 400⟩ ∧
    (TeamMemberService.createPassword inviteTok password email db).db = db ∧
    (TeamMemberService.createPassword inviteTok password email db).emails = [] := by
  have hfind : db.find? (fun t => t.inviteToken == some (cryptoHash inviteTok)) = none := by
    rw [List.find?_eq_none]
    intro t ht
    simpa using h t ht
  simp [TeamMemberService.createPassword, hfind]

/-- Witness for createPassword_no_match_fails_400 at a concrete database. -/
theorem createPassword_no_match_fails_400_witness :
    (TeamMemberService.createPassword "zz" "pw" "bob@x.com" [tmB]).res =
      Except.error ⟨"Invalid Token", 400⟩ ∧
    (TeamMemberService.createPassword "zz" "pw" "bob@x.com" [tmB]).db = [tmB] ∧
    (TeamMemberService.createPassword "zz" "pw" "bob@x.com" [tmB]).emails = [] :=
  createPassword_no_match_fails_400 "zz" "pw" "bob@x.com" [tmB] (by decide)

/-- C3 counterexample: deleting an ACTIVE member owned by the caller fails,
but with status code 404, not the claimed 403 ForbiddenError. -/
theorem delete_active_error_is_404 :
    (TeamMemberService.delete 7 2 [tmB]).res =
      Except.error ⟨"Only users with INACTIVE status can be deleted!", 404⟩ ∧
    (404 : Nat) ≠ 403 := by
  refine ⟨rfl, by decide⟩

/-- C3 (amended): remove on an existing record owned by the caller fails with
a 404-coded "Only users with INACTIVE status can be deleted!" error and leaves
the database unchanged when the status is ACTIVE or DEACTIVATED, and
hard-deletes the record exactly when the status is INACTIVE. -/
theorem delete_status_gate (adminId teamMemberId : Nat) (db : DB) (tm : TeamMember)
    (hfind : db.find? (fun t => t.id == teamMemberId) = some tm)
    (hown : tm.adminId = adminId) :
    ((tm.status = .ACTIVE ∨ tm.status = .DEACTIVATED) →
       (TeamMemberService.delete adminId teamMemberId db).res =
         Except.error ⟨"Only users with INACTIVE status can be deleted!", 404⟩ ∧
       (TeamMemberService.delete adminId teamMemberId db).db = db) ∧
    (tm.status = .INACTIVE →
       (TeamMemberService.delete adminId teamMemberId db).res = .ok () ∧
       (TeamMemberService.delete adminId teamMemberId db).db =
         db.filter (fun t => t.id != teamMemberId)) := by
  constructor
  · intro hst
    rcases hst with h | h <;>
      simp [TeamMemberService.delete, hfind, hown, h]
  · intro h
    simp [TeamMemberService.delete, hfind, hown, h]

/-- Witness for delete_status_gate: rejection on an ACTIVE record and deletion
of an INACTIVE one. -/
theorem delete_status_gate_witness :
    ((TeamMemberService.delete 7 2 [tmB]).res =
       Except.error ⟨"Only users with INACTIVE status can be deleted!", 404⟩ ∧
     (TeamMemberService.delete 7 2 [tmB]).db = [tmB]) ∧
    ((TeamMemberService.delete 7 1 [tmA]).res = .ok () ∧
     (TeamMemberService.delete 7 1 [tmA]).db = [tmA].filter (fun t => t.id != 1)) :=
  ⟨(delete_status_gate 7 2 [tmB] tmB (by decide) rfl).1 (Or.inl rfl),
   (delete_status_gate 7 1 [tmA] tmA (by decide) rfl).2 rfl⟩

/-- C4: setStatus (changeStatus) fails 404 when the id is absent; fails 403 on
an owner mismatch regardless of the current status (and delete rejects an
owner mismatch with the same 403); fails 403 when the current status is
INACTIVE; otherwise succeeds and the record now carries the requested
status. -/
theorem changeStatus_spec (adminId teamMemberId : Nat) (s : Status) (db : DB) :
    (db.find? (fun t => t.id == teamMemberId) = none →
       (TeamMemberService.changeStatus adminId teamMemberId s db).res =
         Except.error ⟨notFoundWithIdMessage teamMemberId, 404⟩) ∧
    (∀ tm, db.find? (fun t => t.id == teamMemberId) = some tm →
       (tm.adminId ≠ adminId →
          (TeamMemberService.changeStatus adminId teamMemberId s db).res =
            Except.error ⟨forbiddenMessage, 403⟩ ∧
          (TeamMemberService.delete adminId teamMemberId db).res =
            Except.error ⟨forbiddenMessage, 403⟩) ∧
       (tm.adminId = adminId → tm.status = .INACTIVE →
          (TeamMemberService.changeStatus adminId teamMemberId s db).res =
            Except.error ⟨"Status Change is now allowed. Users with INACTIVE status can be deleted only!", 403⟩) ∧
       (tm.adminId = adminId → tm.status ≠ .INACTIVE →
          (TeamMemberService.changeStatus adminId teamMemberId s db).res = .ok () ∧
          (TeamMemberService.changeStatus adminId teamMemberId s db).db.find?
              (fun t => t.id == teamMemberId) = some { tm with status := s })) := by
  constructor
  · intro h
    simp [TeamMemberService.changeStatus, h]
  · intro tm hfind
    refine ⟨?_, ?_, ?_⟩
    · intro hne
      have hb : (tm.adminId != adminId) = true := by simpa [bne_iff_ne] using hne
      constructor
      · simp [TeamMemberService.changeStatus, hfind, hb]
      · simp [TeamMemberService.delete, hfind, hb]
    · intro hown hst
      simp [TeamMemberService.changeStatus, hfind, hown, hst]
    · intro hown hst
      have hb : (tm.status == Status.INACTIVE) = false := by
        simpa [beq_iff_eq] using hst
      have hid0 := List.find?_some hfind
      have hideq : tm.id = teamMemberId := by simpa using hid0
      constructor
      · simp [TeamMemberService.changeStatus, hfind, hown, hb]
      · have hdb : (TeamMemberService.changeStatus adminId teamMemberId s db).db =
            db.map (fun t =>
              if t.id == teamMemberId && t.adminId == adminId then
                { t with status := s }
              else t) := by
          simp [TeamMemberService.changeStatus, hfind, hown, hb]
        rw [hdb, find?_map_patch (fun t => t.id == teamMemberId)
              (fun t =>
                if t.id == teamMemberId && t.adminId == adminId then
                  { t with status := s }
                else t)
              (by intro t; by_cases h : (t.id == teamMemberId && t.adminId == adminId) = true <;>
                    simp [h]),
            hfind]
        simp [hideq, hown]

/-- Witness for changeStatus_spec: owner-mismatch rejection (also for delete)
and a successful deactivation. -/
theorem changeStatus_spec_witness :
    ((TeamMemberService.changeStatus 8 2 Status.DEACTIVATED [tmB]).res =
       Except.error ⟨forbiddenMessage, 403⟩ ∧
     (TeamMemberService.delete 8 2 [tmB]).res = Except.error ⟨forbiddenMessage, 403⟩) ∧
    ((TeamMemberService.changeStatus 7 2 Status.DEACTIVATED [tmB]).res = .ok () ∧
     (TeamMemberService.changeStatus 7 2 Status.DEACTIVATED [tmB]).db.find?
        (fun t => t.id == 2) = some { tmB with status := .DEACTIVATED }) :=
  ⟨((changeStatus_spec 8 2 Status.DEACTIVATED [tmB]).2 tmB (by decide)).1 (by decide),
   ((changeStatus_spec 7 2 Status.DEACTIVATED [tmB]).2 tmB (by decide)).2.2 rfl (by decide)⟩

/-- Fixture: the profile input of the invite scenario. -/
def inputJane : CreateInput :=
  { firstName := "Jane", lastName := "Doe", email := "jane@x.com",
    position := "Eng", joinDate := "2024-01-01" }

/-- C5 counterexample: when the invite email dispatch fails, create leaves the
newly created record in the database, but the call itself throws the dispatch
failure instead of returning the created public fields. -/
theorem create_mailer_failure_propagates :
    (TeamMemberService.create 7 inputJane "tok1" 10 false []).db =
      [newTeamMember 7 inputJane "tok1" 10] ∧
    (TeamMemberService.create 7 inputJane "tok1" 10 false []).res =
      Except.error ⟨"Email dispatch failed", 500⟩ :=
  ⟨rfl, rfl⟩

/-- C5 (amended): with a fresh id and email, the record is inserted and
persists whether or not the email dispatch succeeds (creation precedes
dispatch and is not rolled back); on dispatch success the invite returns the
created record public fields and sends exactly one email; on dispatch failure
the record remains but the failure propagates out of the invite and nothing
is returned. -/
theorem create_persists_before_email (adminId : Nat) (input : CreateInput)
    (inviteTok : String) (newId : Nat) (db : DB)
    (hfresh : ∀ t ∈ db, t.id ≠ newId ∧ t.email ≠ input.email) :
    (TeamMemberService.create adminId input inviteTok newId true db).db =
      db ++ [newTeamMember adminId input inviteTok newId] ∧
    (TeamMemberService.create adminId input inviteTok newId false db).db =
      db ++ [newTeamMember adminId input inviteTok newId] ∧
    (TeamMemberService.create adminId input inviteTok newId true db).res =
      .ok (selectFields createSelect (newTeamMember adminId input inviteTok newId)) ∧
    (TeamMemberService.create adminId input inviteTok newId true db).emails =
      [(input.email, inviteTok)] ∧
    (TeamMemberService.create adminId input inviteTok newId false db).res =
      Except.error ⟨"Email dispatch failed", 500⟩ ∧
    (TeamMemberService.create adminId input inviteTok newId false db).emails = [] := by
  have hany : db.any (fun t => t.id == newId || t.email == input.email) = false := by
    rw [List.any_eq_false]
    intro t ht
    have h := hfresh t ht
    simp [h.1, h.2]
  refine ⟨?_, ?_, ?_, ?_, ?_, ?_⟩ <;> simp [TeamMemberService.create, hany]

/-- Witness for create_persists_before_email on an empty database. -/
theorem create_persists_before_email_witness :
    (TeamMemberService.create 7 inputJane "tok1" 10 true []).db =
      [] ++ [newTeamMember 7 inputJane "tok1" 10] ∧
    (TeamMemberService.create 7 inputJane "tok1" 10 true []).res =
      .ok (selectFields createSelect (newTeamMember 7 inputJane "tok1" 10)) ∧
    (TeamMemberService.create 7 inputJane "tok1" 10 false []).res =
      Except.error ⟨"Email dispatch failed", 500⟩ :=
  have h := create_persists_before_email 7 inputJane "tok1" 10 [] (by simp)
  ⟨h.1, h.2.2.1, h.2.2.2.2.1⟩

/-- C6: authenticate (login) on an INACTIVE member never returns a credential:
it fails with the 400 password-not-set error, dispatches exactly one invite
email carrying the fresh token, stores the fresh token hash on the record,
and any previous token whose hash differs from the fresh one no longer
matches the stored hash. -/
theorem login_inactive_reinvites_and_fails (email password freshTok : String)
    (db : DB) (tm : TeamMember)
    (hfind : db.find? (fun t => t.email == email) = some tm)
    (hst : tm.status = .INACTIVE) :
    (TeamMemberService.login email password freshTok db).res =
      Except.error ⟨"You did not set up the account password yet. We just emailed an instruction.", 400⟩ ∧
    (TeamMemberService.login email password freshTok db).emails = [(email, freshTok)] ∧
    (TeamMemberService.login email password freshTok db).db.find?
        (fun t => t.email == email) =
      some { tm with inviteToken := some (cryptoHash freshTok) } ∧
    (∀ prev : String, prev ≠ cryptoHash freshTok →
       ((TeamMemberService.login email password freshTok db).db.find?
           (fun t => t.email == email)).map (fun t => t.inviteToken) ≠
         some (some prev)) := by
  have hmail : tm.email = email := by simpa using List.find?_some hfind
  have hdbfind : (TeamMemberService.login email password freshTok db).db.find?
      (fun t => t.email == email) =
      some { tm with inviteToken := some (cryptoHash freshTok) } := by
    have hdb : (TeamMemberService.login email password freshTok db).db =
        db.map (fun t =>
          if t.email == email then
            { t with inviteToken := some (cryptoHash freshTok) }
          else t) := by
      simp [TeamMemberService.login, hfind, hst]
    rw [hdb, find?_map_patch (fun t => t.email == email)
          (fun t =>
            if t.email == email then
              { t with inviteToken := some (cryptoHash freshTok) }
            else t)
          (by intro t; by_cases h : (t.email == email) = true <;> simp [h]),
        hfind]
    simp [hmail]
  refine ⟨?_, ?_, hdbfind, ?_⟩
  · simp [TeamMemberService.login, hfind, hst]
  · simp [TeamMemberService.login, hfind, hst]
  · intro prev hprev
    rw [hdbfind]
    simp
    exact fun hc => hprev hc.symm

/-- Witness for login_inactive_reinvites_and_fails on the pending member
tmA, whose earlier token hash differs from the fresh one. -/
theorem login_inactive_witness :
    (TeamMemberService.login "ann@x.com" "pw" "tokFresh" [tmA]).res =
      Except.error ⟨"You did not set up the account password yet. We just emailed an instruction.", 400⟩ ∧
    (TeamMemberService.login "ann@x.com" "pw" "tokFresh" [tmA]).emails =
      [("ann@x.com", "tokFresh")] ∧
    (TeamMemberService.login "ann@x.com" "pw" "tokFresh" [tmA]).db.find?
        (fun t => t.email == "ann@x.com") =
      some { tmA with inviteToken := some (cryptoHash "tokFresh") } ∧
    ((TeamMemberService.login "ann@x.com" "pw" "tokFresh" [tmA]).db.find?
        (fun t => t.email == "ann@x.com")).map (fun t => t.inviteToken) ≠
      some (some (cryptoHash "tokA")) :=
  have h := login_inactive_reinvites_and_fails "ann@x.com" "pw" "tokFresh" [tmA] tmA
    (by decide) rfl
  ⟨h.1, h.2.1, h.2.2.1, h.2.2.2 (cryptoHash "tokA") (by decide)⟩

/-- C7: authenticate (login) on an ACTIVE member: a matching password yields
the signed session credential binding the member id and its admin id with the
fixed 2-day window; a mismatching password fails 401 "Invalid Credentials"
and no credential is issued. -/
theorem login_active_spec (email password freshTok : String) (db : DB) (tm : TeamMember)
    (hfind : db.find? (fun t => t.email == email) = some tm)
    (hst : tm.status = .ACTIVE) :
    (bcryptCompare password tm.password = true →
       (TeamMemberService.login email password freshTok db).res =
         .ok { teamMemberId := tm.id, adminId := tm.adminId, expiresIn := "2 days" }) ∧
    (bcryptCompare password tm.password = false →
       (TeamMemberService.login email password freshTok db).res =
         Except.error ⟨"Invalid Credentials", 401⟩) := by
  constructor <;> intro h <;>
    simp [TeamMemberService.login, hfind, hst, h, jwtSign]

/-- Witness for login_active_spec: the ACTIVE member tmB with the correct and
with a wrong password. -/
theorem login_active_witness :
    (TeamMemberService.login "bob@x.com" "oldpw" "t" [tmB]).res =
      .ok { teamMemberId := tmB.id, adminId := tmB.adminId, expiresIn := "2 days" } ∧
    (TeamMemberService.login "bob@x.com" "bad" "t" [tmB]).res =
      Except.error ⟨"Invalid Credentials", 401⟩ :=
  ⟨(login_active_spec "bob@x.com" "oldpw" "t" [tmB] tmB (by decide) rfl).1 (by decide),
   (login_active_spec "bob@x.com" "bad" "t" [tmB] tmB (by decide) rfl).2 (by decide)⟩

/-- In a database whose ids are pairwise distinct, membership plus id
equality pins down the record. -/
theorem mem_id_unique {db : DB} (h : (db.map (fun t => t.id)).Nodup)
    {a b : TeamMember} (ha : a ∈ db) (hb : b ∈ db) (hid : a.id = b.id) : a = b :=
  List.inj_on_of_nodup_map h ha hb hid

/-- Shape of the database after changeStatus with a non-INACTIVE target
status: unchanged, or an id-preserving patch that never writes INACTIVE. -/
theorem changeStatus_db_shape (a i : Nat) (s : Status) (hs : s ≠ .INACTIVE) (db : DB) :
    (TeamMemberService.changeStatus a i s db).db = db ∨
    (∃ f : TeamMember → TeamMember,
       (TeamMemberService.changeStatus a i s db).db = db.map f ∧
       (∀ u, (f u).id = u.id) ∧
       (∀ u, (f u).status = u.status ∨ (f u).status ≠ Status.INACTIVE)) := by
  cases hfind : db.find? (fun u => u.id == i) with
  | none => left; simp [TeamMemberService.changeStatus, hfind]
  | some tm =>
    by_cases hadm : (tm.adminId != a) = true
    · left; simp [TeamMemberService.changeStatus, hfind, hadm]
    · rw [Bool.not_eq_true] at hadm
      by_cases hina : (tm.status == Status.INACTIVE) = true
      · left; simp [TeamMemberService.changeStatus, hfind, hadm, hina]
      · rw [Bool.not_eq_true] at hina
        right
        refine ⟨fun u => if u.id == i && u.adminId == a then { u with status := s } else u,
                ?_, ?_, ?_⟩
        · simp [TeamMemberService.changeStatus, hfind, hadm, hina]
        · intro u
          by_cases h : (u.id == i && u.adminId == a) = true <;> simp [h]
        · intro u
          by_cases h : (u.id == i && u.adminId == a) = true
          · right; simpa [h] using hs
          · left; simp [h]

/-- Shape of the database after any public operation: unchanged, an
id-preserving patch that never writes INACTIVE over a record, a filter, or
the append of one record with a fresh id. -/
theorem runOp_db_shape (op : PublicOp) (db : DB) :
    runOp op db = db ∨
    (∃ f : TeamMember → TeamMember,
       runOp op db = db.map f ∧ (∀ u, (f u).id = u.id) ∧
       (∀ u, (f u).status = u.status ∨ (f u).status ≠ Status.INACTIVE)) ∨
    (∃ p : TeamMember → Bool, runOp op db = db.filter p) ∨
    (∃ tm : TeamMember, runOp op db = db ++ [tm] ∧ ∀ u ∈ db, u.id ≠ tm.id) := by
  cases op with
  | createOp a i tok n m =>
    by_cases hany : db.any (fun u => u.id == n || u.email == i.email) = true
    · left; simp [runOp, TeamMemberService.create, hany]
    · right; right; right
      refine ⟨newTeamMember a i tok n, ?_, ?_⟩
      · simp [runOp, TeamMemberService.create, hany]
      · intro u hu hid
        apply hany
        rw [List.any_eq_true]
        refine ⟨u, hu, ?_⟩
        have hid2 : u.id = n := by simpa [newTeamMember] using hid
        simp [hid2]
  | createPasswordOp tok p e =>
    cases hfind : db.find? (fun u => u.inviteToken == some (cryptoHash tok)) with
    | none => left; simp [runOp, TeamMemberService.createPassword, hfind]
    | some tm0 =>
      by_cases hany : db.any (fun u => u.email == e) = true
      · right; left
        refine ⟨fun u =>
            if u.email == e then
              { u with password := some (bcryptHash p), status := .ACTIVE,
                       inviteToken := none }
            else u, ?_, ?_, ?_⟩
        · simp [runOp, TeamMemberService.createPassword, hfind, hany]
        · intro u
          by_cases h : (u.email == e) = true <;> simp [h]
        · intro u
          by_cases h : (u.email == e) = true
          · right; simp [h]
          · left; simp [h]
      · left; simp [runOp, TeamMemberService.createPassword, hfind, hany]
  | getAllOp a => left; rfl
  | deactivateOp a i =>
    rcases changeStatus_db_shape a i Status.DEACTIVATED (by decide) db with h | ⟨f, h1, h2, h3⟩
    · left; simpa [runOp, TeamMemberController.deactivate] using h
    · right; left
      exact ⟨f, by simpa [runOp, TeamMemberController.deactivate] using h1, h2, h3⟩
  | reactivateOp a i =>
    rcases changeStatus_db_shape a i Status.ACTIVE (by decide) db with h | ⟨f, h1, h2, h3⟩
    · left; simpa [runOp, TeamMemberController.reactivate] using h
    · right; left
      exact ⟨f, by simpa [runOp, TeamMemberController.reactivate] using h1, h2, h3⟩
  | deleteOp a i =>
    cases hfind : db.find? (fun u => u.id == i) with
    | none => left; simp [runOp, TeamMemberService.delete, hfind]
    | some tm =>
      by_cases hadm : (tm.adminId != a) = true
      · left; simp [runOp, TeamMemberService.delete, hfind, hadm]
      · rw [Bool.not_eq_true] at hadm
        by_cases hact : (tm.status == Status.ACTIVE || tm.status == Status.DEACTIVATED) = true
        · left; simp [runOp, TeamMemberService.delete, hfind, hadm, hact]
        · rw [Bool.not_eq_true] at hact
          right; right; left
          exact ⟨fun u => u.id != i,
                 by simp [runOp, TeamMemberService.delete, hfind, hadm, hact]⟩
  | updateOp a i b =>
    by_cases hany : db.any (fun u => u.id == i && u.adminId == a) = true
    · right; left
      refine ⟨fun u =>
          if u.id == i && u.adminId == a then
            TeamMemberService.applyUpdateData (TeamMemberController.buildUpdateData b) u
          else u, ?_, ?_, ?_⟩
      · simp [runOp, TeamMemberController.update, TeamMemberService.update, hany]
      · intro u
        by_cases h : (u.id == i && u.adminId == a) = true <;>
          simp [h, TeamMemberService.applyUpdateData]
      · intro u
        left
        by_cases h : (u.id == i && u.adminId == a) = true <;>
          simp [h, TeamMemberService.applyUpdateData]
    · left; simp [runOp, TeamMemberController.update, TeamMemberService.update, hany]
  | loginOp e p tok =>
    cases hfind : db.find? (fun u => u.email == e) with
    | none => left; simp [runOp, TeamMemberService.login, hfind]
    | some tm =>
      by_cases hina : (tm.status == Status.INACTIVE) = true
      · right; left
        refine ⟨fun u =>
            if u.email == e then { u with inviteToken := some (cryptoHash tok) }
            else u, ?_, ?_, ?_⟩
        · simp [runOp, TeamMemberService.login, hfind, hina]
        · intro u
          by_cases h : (u.email == e) = true <;> simp [h]
        · intro u
          left
          by_cases h : (u.email == e) = true <;> simp [h]
      · rw [Bool.not_eq_true] at hina
        by_cases hde : (tm.status == Status.DEACTIVATED) = true
        · left; simp [runOp, TeamMemberService.login, hfind, hina, hde]
        · rw [Bool.not_eq_true] at hde
          by_cases hmatch : bcryptCompare p tm.password = true
          · left; simp [runOp, TeamMemberService.login, hfind, hina, hde, hmatch]
          · rw [Bool.not_eq_true] at hmatch
            left; simp [runOp, TeamMemberService.login, hfind, hina, hde, hmatch]
  | getMeOp i =>
    cases hfind : db.find? (fun u => u.id == i) with
    | none => left; simp [runOp, TeamMemberService.getMe, hfind]
    | some tm => left; simp [runOp, TeamMemberService.getMe, hfind]

/-- C8: no public operation moves an existing team member whose status is
ACTIVE or DEACTIVATED back to INACTIVE.  In a database with pairwise
distinct ids, every record carrying such a member's id after any public
operation is still not INACTIVE; the status-change endpoints only ever write
the literals DEACTIVATED and ACTIVE, and the only INACTIVE write is the
fresh record appended by invite. -/
theorem no_operation_reverts_to_inactive (op : PublicOp) (db : DB)
    (hids : (db.map (fun t => t.id)).Nodup)
    (t : TeamMember) (ht : t ∈ db) (hst : t.status ≠ .INACTIVE) :
    ∀ t2 ∈ runOp op db, t2.id = t.id → t2.status ≠ .INACTIVE := by
  have hsame : ∀ u ∈ db, u.id = t.id → u.status ≠ .INACTIVE := by
    intro u hu huid
    rw [mem_id_unique hids hu ht huid]
    exact hst
  intro t2 ht2 hid
  rcases runOp_db_shape op db with hsh | ⟨f, hdb, hfid, hfst⟩ | ⟨p, hdb⟩ | ⟨tm, hdb, hfresh⟩
  · rw [hsh] at ht2
    exact hsame t2 ht2 hid
  · rw [hdb] at ht2
    rcases List.mem_map.mp ht2 with ⟨u, hu, rfl⟩
    rcases hfst u with h | h
    · rw [h]
      exact hsame u hu (by rw [← hfid u]; exact hid)
    · exact h
  · rw [hdb] at ht2
    exact hsame t2 (List.mem_of_mem_filter ht2) hid
  · rw [hdb] at ht2
    rcases List.mem_append.mp ht2 with h | h
    · exact hsame t2 h hid
    · have heq : t2 = tm := by simpa using h
      subst heq
      exact absurd hid.symm (hfresh t ht)

/-- Witness for no_operation_reverts_to_inactive: deactivating the ACTIVE
member tmB yields a record that is not INACTIVE. -/
theorem no_operation_reverts_to_inactive_witness :
    ({ tmB with status := Status.DEACTIVATED } : TeamMember).status ≠ Status.INACTIVE :=
  no_operation_reverts_to_inactive (.deactivateOp 7 2) [tmB] (by decide) tmB
    (by decide) (by decide) { tmB with status := Status.DEACTIVATED }
    (by decide) (by decide)

/-- C9: the projections returned by invite (create's select), listForAdmin
(getAll's select) and getSelf (getMe's select plus the role tag) never
contain the password column nor the inviteToken column. -/
theorem projections_exclude_secrets :
    (∀ (a : Nat) (input : CreateInput) (tok : String) (n : Nat) (m : Bool) (db : DB) proj,
       (TeamMemberService.create a input tok n m db).res = .ok proj →
       proj.lookup "password" = none ∧ proj.lookup "inviteToken" = none) ∧
    (∀ (a : Nat) (db : DB), ∀ proj ∈ TeamMemberService.getAll a db,
       proj.lookup "password" = none ∧ proj.lookup "inviteToken" = none) ∧
    (∀ (i : Nat) (db : DB) proj,
       (TeamMemberService.getMe i db).res = .ok proj →
       proj.lookup "password" = none ∧ proj.lookup "inviteToken" = none) := by
  refine ⟨?_, ?_, ?_⟩
  · intro a input tok n m db proj hok
    have hproj : proj = selectFields createSelect (newTeamMember a input tok n) := by
      by_cases hany : db.any (fun t => t.id == n || t.email == input.email) = true
      · simp [TeamMemberService.create, hany] at hok
      · cases m with
        | true =>
          simp [TeamMemberService.create, hany] at hok
          exact hok.symm
        | false => simp [TeamMemberService.create, hany] at hok
    rw [hproj]
    exact ⟨rfl, rfl⟩
  · intro a db proj hmem
    rcases List.mem_map.mp hmem with ⟨u, hu, rfl⟩
    exact ⟨rfl, rfl⟩
  · intro i db proj hok
    cases hfind : db.find? (fun t => t.id == i) with
    | none => simp [TeamMemberService.getMe, hfind] at hok
    | some tm =>
      have hproj : proj =
          selectFields getMeSelect tm ++ [("role", FieldValue.str "teamMember")] := by
        simp [TeamMemberService.getMe, hfind] at hok
        exact hok.symm
      rw [hproj]
      exact ⟨rfl, rfl⟩

/-- Witness for projections_exclude_secrets on the getAll and getMe paths. -/
theorem projections_exclude_secrets_witness :
    ((selectFields getAllSelect tmB).lookup "password" = none ∧
     (selectFields getAllSelect tmB).lookup "inviteToken" = none) ∧
    ((selectFields getMeSelect tmA ++ [("role", FieldValue.str "teamMember")]).lookup "password" = none ∧
     (selectFields getMeSelect tmA ++ [("role", FieldValue.str "teamMember")]).lookup "inviteToken" = none) :=
  ⟨projections_exclude_secrets.2.1 7 [tmB] (selectFields getAllSelect tmB) (by decide),
   projections_exclude_secrets.2.2 1 [tmA]
     (selectFields getMeSelect tmA ++ [("role", FieldValue.str "teamMember")]) rfl⟩

/-- The record at position n of the database after the controller-level
profile update. -/
def updatedAt (adminId teamMemberId : Nat) (body : TeamMemberController.UpdateBody)
    (db : DB) (n : Nat) : Option TeamMember :=
  (TeamMemberController.update adminId teamMemberId body db).db[n]?

/-- C10: the controller-level profile update applies only the truthy-supplied
subset of the four profile fields, and only to records matching the
(teamMemberId, adminId) scope: at every position the id, adminId, email,
status, password and inviteToken columns are unchanged; a record outside the
scope is untouched entirely; a falsy (absent or empty) field is not applied;
and a truthy field is applied to the scoped record. -/
theorem update_profile_frame (adminId teamMemberId : Nat)
    (body : TeamMemberController.UpdateBody) (db : DB) (n : Nat) (t : TeamMember)
    (hn : db[n]? = some t) :
    (updatedAt adminId teamMemberId body db n).map (fun u => u.id) = some t.id ∧
    (updatedAt adminId teamMemberId body db n).map (fun u => u.adminId) = some t.adminId ∧
    (updatedAt adminId teamMemberId body db n).map (fun u => u.email) = some t.email ∧
    (updatedAt adminId teamMemberId body db n).map (fun u => u.status) = some t.status ∧
    (updatedAt adminId teamMemberId body db n).map (fun u => u.password) = some t.password ∧
    (updatedAt adminId teamMemberId body db n).map (fun u => u.inviteToken) = some t.inviteToken ∧
    (¬(t.id = teamMemberId ∧ t.adminId = adminId) →
       updatedAt adminId teamMemberId body db n = some t) ∧
    (TeamMemberController.truthyStr body.firstName = false →
       (updatedAt adminId teamMemberId body db n).map (fun u => u.firstName) = some t.firstName) ∧
    (TeamMemberController.truthyStr body.lastName = false →
       (updatedAt adminId teamMemberId body db n).map (fun u => u.lastName) = some t.lastName) ∧
    (TeamMemberController.truthyStr body.position = false →
       (updatedAt adminId teamMemberId body db n).map (fun u => u.position) = some t.position) ∧
    (TeamMemberController.truthyStr body.joinDate = false →
       (updatedAt adminId teamMemberId body db n).map (fun u => u.joinDate) = some t.joinDate) ∧
    (TeamMemberController.truthyStr body.firstName = true →
       t.id = teamMemberId → t.adminId = adminId →
       (updatedAt adminId teamMemberId body db n).map (fun u => u.firstName) =
         some (body.firstName.getD "")) ∧
    (TeamMemberController.truthyStr body.lastName = true →
       t.id = teamMemberId → t.adminId = adminId →
       (updatedAt adminId teamMemberId body db n).map (fun u => u.lastName) =
         some (body.lastName.getD "")) ∧
    (TeamMemberController.truthyStr body.position = true →
       t.id = teamMemberId → t.adminId = adminId →
       (updatedAt adminId teamMemberId body db n).map (fun u => u.position) =
         some (body.position.getD "")) ∧
    (TeamMemberController.truthyStr body.joinDate = true →
       t.id = teamMemberId → t.adminId = adminId →
       (updatedAt adminId teamMemberId body db n).map (fun u => u.joinDate) =
         some (body.joinDate.getD "")) := by
  have htmem : t ∈ db := List.getElem?_mem hn
  by_cases hany : db.any (fun u => u.id == teamMemberId && u.adminId == adminId) = true
  · have hres : updatedAt adminId teamMemberId body db n =
        some (if t.id == teamMemberId && t.adminId == adminId then
                TeamMemberService.applyUpdateData
                  (TeamMemberController.buildUpdateData body) t
              else t) := by
      simp [updatedAt, TeamMemberController.update, TeamMemberService.update, hany, hn]
    by_cases hmatch : (t.id == teamMemberId && t.adminId == adminId) = true
    · rw [if_pos hmatch] at hres
      have hm1 : t.id = teamMemberId := by
        have := hmatch
        simp only [Bool.and_eq_true, beq_iff_eq] at this
        exact this.1
      have hm2 : t.adminId = adminId := by
        have := hmatch
        simp only [Bool.and_eq_true, beq_iff_eq] at this
        exact this.2
      refine ⟨?_, ?_, ?_, ?_, ?_, ?_, ?_, ?_, ?_, ?_, ?_, ?_, ?_, ?_, ?_⟩
      · simp [hres, TeamMemberService.applyUpdateData]
      · simp [hres, TeamMemberService.applyUpdateData]
      · simp [hres, TeamMemberService.applyUpdateData]
      · simp [hres, TeamMemberService.applyUpdateData]
      · simp [hres, TeamMemberService.applyUpdateData]
      · simp [hres, TeamMemberService.applyUpdateData]
      · intro hno
        exact absurd ⟨hm1, hm2⟩ hno
      · intro hf
        simp [hres, TeamMemberService.applyUpdateData,
              TeamMemberController.buildUpdateData, hf]
      · intro hf
        simp [hres, TeamMemberService.applyUpdateData,
              TeamMemberController.buildUpdateData, hf]
      · intro hf
        simp [hres, TeamMemberService.applyUpdateData,
              TeamMemberController.buildUpdateData, hf]
      · intro hf
        simp [hres, TeamMemberService.applyUpdateData,
              TeamMemberController.buildUpdateData, hf]
      · intro hf _ _
        cases hbf : body.firstName with
        | none => rw [hbf] at hf; simp [TeamMemberController.truthyStr] at hf
        | some s =>
          rw [hbf] at hf
          simp [hres, TeamMemberService.applyUpdateData,
                TeamMemberController.buildUpdateData, hf, hbf]
      · intro hf _ _
        cases hbf : body.lastName with
        | none => rw [hbf] at hf; simp [TeamMemberController.truthyStr] at hf
        | some s =>
          rw [hbf] at hf
          simp [hres, TeamMemberService.applyUpdateData,
                TeamMemberController.buildUpdateData, hf, hbf]
      · intro hf _ _
        cases hbf : body.position with
        | none => rw [hbf] at hf; simp [TeamMemberController.truthyStr] at hf
        | some s =>
          rw [hbf] at hf
          simp [hres, TeamMemberService.applyUpdateData,
                TeamMemberController.buildUpdateData, hf, hbf]
      · intro hf _ _
        cases hbf : body.joinDate with
        | none => rw [hbf] at hf; simp [TeamMemberController.truthyStr] at hf
        | some s =>
          rw [hbf] at hf
          simp [hres, TeamMemberService.applyUpdateData,
                TeamMemberController.buildUpdateData, hf, hbf]
    · rw [if_neg (by simpa using hmatch)] at hres
      have hnomatch : ¬(t.id = teamMemberId ∧ t.adminId = adminId) := by
        intro hc
        exact hmatch (by simp [hc.1, hc.2])
      refine ⟨?_, ?_, ?_, ?_, ?_, ?_, ?_, ?_, ?_, ?_, ?_, ?_, ?_, ?_, ?_⟩ <;>
        first
          | (intro _ h1 h2; exact absurd ⟨h1, h2⟩ hnomatch)
          | simp [hres]
  · have hnomatch : ¬(t.id = teamMemberId ∧ t.adminId = adminId) := by
      intro hc
      apply hany
      rw [List.any_eq_true]
      exact ⟨t, htmem, by simp [hc.1, hc.2]⟩
    have hres : updatedAt adminId teamMemberId body db n = some t := by
      simp [updatedAt, TeamMemberController.update, TeamMemberService.update, hany, hn]
    refine ⟨?_, ?_, ?_, ?_, ?_, ?_, ?_, ?_, ?_, ?_, ?_, ?_, ?_, ?_, ?_⟩ <;>
      first
        | (intro _ h1 h2; exact absurd ⟨h1, h2⟩ hnomatch)
        | simp [hres]

/-- Witness for update_profile_frame: a body with one truthy field, one empty
field and two absent fields applied to the owned record tmB. -/
theorem update_profile_frame_witness :
    (updatedAt 7 2 ⟨some "Rob", some "", none, none⟩ [tmB] 0).map (fun u => u.id) = some tmB.id ∧
    (updatedAt 7 2 ⟨some "Rob", some "", none, none⟩ [tmB] 0).map (fun u => u.email) = some tmB.email ∧
    (updatedAt 7 2 ⟨some "Rob", some "", none, none⟩ [tmB] 0).map (fun u => u.status) = some tmB.status ∧
    (updatedAt 7 2 ⟨some "Rob", some "", none, none⟩ [tmB] 0).map (fun u => u.password) = some tmB.password ∧
    (updatedAt 7 2 ⟨some "Rob", some "", none, none⟩ [tmB] 0).map (fun u => u.lastName) = some tmB.lastName ∧
    (updatedAt 7 2 ⟨some "Rob", some "", none, none⟩ [tmB] 0).map (fun u => u.firstName) =
      some ((some "Rob").getD "") :=
  have h := update_profile_frame 7 2 ⟨some "Rob", some "", none, none⟩ [tmB] 0 tmB rfl
  ⟨h.1, h.2.2.1, h.2.2.2.1, h.2.2.2.2.1, h.2.2.2.2.2.2.2.2.1 rfl,
   h.2.2.2.2.2.2.2.2.2.2.2.1 rfl rfl rfl⟩

end Projectify
